import Mathlib

/-!
# Verification of the median-filter pipeline in `src/median_filter.c`

Shallow embedding of the C program that parses station measurement lines,
sorts the records chronologically by a composite date+time string key, and
applies a width-3 sliding-window median filter to selected float channels.

Modelling conventions:
* C `float` channel values are modelled as rationals (`ℚ`); every property
  claimed of the filter is order-theoretic (the median filter only selects
  existing values, never computes new ones) and non-finite values are out of
  scope, so any linearly ordered field containing the float values is a
  faithful carrier.
* C arrays are modelled as `List ℚ`; `a[i]` reads become `List.getD` and
  `a[i] = v` writes become `List.set`.
* `qsort` with a valid comparator is modelled by `List.insertionSort` over
  the order the comparator encodes: any correct sort of an odd window gives
  the same middle value, and downstream code inspects values only.
-/

namespace RdSci

/-- `#define MEDIAN_WIN_GUESS 3` — the fixed window width used by `medianFilter`. -/
def MEDIAN_WIN_GUESS : Nat := 3

/-- `#define DAT0 0` — index of the first channel extracted (foF2). -/
def DAT0 : Nat := 0

/-- `#define DAT1 5` — index of the second channel extracted (hmF2). -/
def DAT1 : Nat := 5

/-- Model of `qsort(window, window_width, sizeof(float), compareVals)`.
`compareVals` returns `-1/1/0` on `<`/`>`/`=` of the two float values, so the
call sorts the window ascending by numeric value. -/
def qsortFloats (l : List ℚ) : List ℚ :=
  List.insertionSort (fun x y => x ≤ y) l

/-- The window filled by the inner loop of `medianFilter`:
`for (j=0; j<window_width; j++) window[k++] = dat[i + j - edge];`. -/
def windowAt (w edge i : Nat) (dat : List ℚ) : List ℚ :=
  (List.range w).map (fun j => dat.getD (i + j - edge) 0)

/-- One interior output sample of `medianFilter`: the window around `i` is
filled from `dat`, sorted with `compareVals`, and `window[edge]` is taken. -/
def pixelValue (w : Nat) (dat : List ℚ) (i : Nat) : ℚ :=
  (qsortFloats (windowAt w (w / 2) i dat)).getD (w / 2) 0

/-- The body of `medianFilter` for a general `window_width = w`:
`outputPixelValue` starts as a copy of `dat` (the transfer loop), then for
`i` from `edge = floor(w/2)` while `i < end - edge` the loop stores
`outputPixelValue[i] = window[edge];`. -/
def medianFilterW (w : Nat) (dat : List ℚ) : List ℚ :=
  (List.range' (w / 2) (dat.length - w / 2 - w / 2)).foldl
    (fun out i => out.set i (pixelValue w dat i))
    dat

/-- `medianFilter(dat, end, name)` from median_filter.c: the filter with its
hard-coded `window_width = MEDIAN_WIN_GUESS`, returning the new
`outputPixelValue` array (the plotting call has no effect on the data). -/
def medianFilter (dat : List ℚ) : List ℚ :=
  medianFilterW MEDIAN_WIN_GUESS dat

/-- Median as the spec words it: the middle value of an odd-sized collection
after ascending numeric ordering. -/
def medianSpec (l : List ℚ) : ℚ :=
  (List.insertionSort (fun x y => x ≤ y) l).getD (l.length / 2) 0

/-! ## Generic lemmas about the imperative write loop -/

theorem getD_of_lt {α : Type} (l : List α) (d : α) (i : Nat) (h : i < l.length) :
    l.getD i d = l.get ⟨i, h⟩ := by
  simp [List.getD_eq_getElem?_getD, List.getElem?_eq_getElem h]

theorem foldl_set_length {α : Type} (f : Nat → α) (l : List Nat) (init : List α) :
    (l.foldl (fun out i => out.set i (f i)) init).length = init.length := by
  induction l generalizing init with
  | nil => rfl
  | cons j t ih => simp [List.foldl_cons, ih]

theorem foldl_set_getD {α : Type} (f : Nat → α) (d : α) (l : List Nat) (init : List α)
    (i : Nat) :
    (l.foldl (fun out i => out.set i (f i)) init).getD i d =
      if i ∈ l ∧ i < init.length then f i else init.getD i d := by
  induction l generalizing init with
  | nil => simp
  | cons j t ih =>
    rw [List.foldl_cons, ih]
    rcases eq_or_ne i j with rfl | hj
    · by_cases hlen : i < init.length
      · have hset : (init.set i (f i)).getD i d = f i := by
          simp [List.getD_eq_getElem?_getD, List.getElem?_set_self hlen]
        simp [hset, hlen]
      · rw [List.set_eq_of_length_le (Nat.le_of_not_lt hlen)]
        simp [hlen]
    · have hset : (init.set j (f j)).getD i d = init.getD i d := by
        simp [List.getD_eq_getElem?_getD, List.getElem?_set_ne (Ne.symm hj)]
      rw [List.length_set, hset]
      simp [List.mem_cons, hj]

theorem medianFilterW_length (w : Nat) (dat : List ℚ) :
    (medianFilterW w dat).length = dat.length := by
  unfold medianFilterW
  rw [foldl_set_length]

/-- Characterisation of `medianFilter`'s output array, position by position:
interior positions hold the sorted-window middle sample, the rest keep the
value copied by the transfer loop. -/
theorem medianFilterW_getD (w : Nat) (dat : List ℚ) (i : Nat) :
    (medianFilterW w dat).getD i 0 =
      if w / 2 ≤ i ∧ i < dat.length - w / 2 then pixelValue w dat i
      else dat.getD i 0 := by
  unfold medianFilterW
  rw [foldl_set_getD (pixelValue w dat)]
  by_cases h : w / 2 ≤ i ∧ i < dat.length - w / 2
  · rw [if_pos h, if_pos]
    refine ⟨?_, by omega⟩
    rw [List.mem_range'_1]
    omega
  · rw [if_neg h, if_neg]
    rintro ⟨hm, hlen⟩
    rw [List.mem_range'_1] at hm
    exact h (by omega)

theorem windowAt_eq_slice {w edge i : Nat} {dat : List ℚ} (hw : w = 2 * edge + 1)
    (hei : edge ≤ i) (hib : i + edge < dat.length) :
    windowAt w edge i dat = (dat.drop (i - edge)).take w := by
  apply List.ext_getElem
  · simp only [windowAt, List.length_map, List.length_range, List.length_take,
      List.length_drop]
    omega
  · intro j h1 h2
    simp only [windowAt, List.length_map, List.length_range] at h1
    simp only [windowAt, List.getElem_map, List.getElem_range]
    rw [List.getElem_take, List.getElem_drop]
    have hidx : i + j - edge = i - edge + j := by omega
    rw [hidx, getD_of_lt dat 0 (i - edge + j) (by omega)]
    simp

/-! ## C1 — interior positions hold the window median -/

/-- C1: for every input sequence and odd window width `w` with
`edge = w / 2`, the filter's output at every interior position `i` is the
median — middle value after ascending ordering — of the `w` input values
`S[i-edge] … S[i+edge]` (the literal window slice). -/
theorem interior_eq_window_median (w : Nat) (dat : List ℚ) (i : Nat)
    (hodd : w % 2 = 1) (h1 : w / 2 ≤ i) (h2 : i < dat.length - w / 2) :
    (medianFilterW w dat).getD i 0 =
      medianSpec ((dat.drop (i - w / 2)).take w) := by
  have hw : w = 2 * (w / 2) + 1 := by omega
  have hib : i + w / 2 < dat.length := by omega
  rw [medianFilterW_getD, if_pos ⟨h1, h2⟩]
  unfold pixelValue qsortFloats medianSpec
  rw [windowAt_eq_slice hw h1 hib]
  have hlen : ((dat.drop (i - w / 2)).take w).length = w := by
    simp only [List.length_take, List.length_drop]
    omega
  rw [hlen]

theorem interior_eq_window_median_witness :
    (3 % 2 = 1 ∧ 3 / 2 ≤ 1 ∧ 1 < ([(7 : ℚ), 8, 2] : List ℚ).length - 3 / 2) ∧
      (medianFilterW 3 [(7 : ℚ), 8, 2]).getD 1 0 =
        medianSpec ((([(7 : ℚ), 8, 2] : List ℚ).drop (1 - 3 / 2)).take 3) :=
  ⟨⟨by decide, by decide, by decide⟩,
    interior_eq_window_median 3 [7, 8, 2] 1 (by decide) (by decide) (by decide)⟩

/-! ## C2 — the concrete Scenario A trace -/

/-- C2 counterexample: the spec's Scenario A output `[7,7,2,2,3,5,6,6,4]` is
not what the code computes on `[7,8,2,1,3,6,5,7,4]` — at position 7 the
window is `(5,7,4)` whose median is 5, not 6. -/
theorem scenarioA_claimed_output_wrong :
    medianFilter [7, 8, 2, 1, 3, 6, 5, 7, 4] ≠ [7, 7, 2, 2, 3, 5, 6, 6, 4] := by
  decide

/-- C2 amended: filtering `[7,8,2,1,3,6,5,7,4]` with `W = 3` yields
`[7,7,2,2,3,5,6,5,4]`: the two edge positions pass through and each interior
value is the median of its centered 3-value window (position 7 holds
`median(5,7,4) = 5`). -/
theorem scenarioA_output :
    medianFilter [7, 8, 2, 1, 3, 6, 5, 7, 4] = [7, 7, 2, 2, 3, 5, 6, 5, 4] := by
  decide

/-! ## C3 — length preservation and boundary pass-through -/

/-- C3: the filtered sequence has the same length as the input, and every
boundary position (`i < edge` or `N - edge ≤ i`) passes through unchanged.
With `w = 3` (`edge = 1`) this gives `filtered[0] = raw[0]` and
`filtered[N-1] = raw[N-1]` for every nonempty input. -/
theorem filtered_length_boundary (w : Nat) (dat : List ℚ) (i : Nat)
    (hi : i < w / 2 ∨ dat.length - w / 2 ≤ i) :
    (medianFilterW w dat).length = dat.length ∧
      (medianFilterW w dat).getD i 0 = dat.getD i 0 := by
  refine ⟨medianFilterW_length w dat, ?_⟩
  rw [medianFilterW_getD]
  have hn : ¬(w / 2 ≤ i ∧ i < dat.length - w / 2) := by omega
  rw [if_neg hn]

theorem filtered_length_boundary_witness :
    (0 < 3 / 2 ∨ ([(7 : ℚ), 8, 2] : List ℚ).length - 3 / 2 ≤ 0) ∧
      ((medianFilterW 3 [(7 : ℚ), 8, 2]).length = ([(7 : ℚ), 8, 2] : List ℚ).length ∧
        (medianFilterW 3 [(7 : ℚ), 8, 2]).getD 0 0 = ([(7 : ℚ), 8, 2] : List ℚ).getD 0 0) :=
  ⟨by decide, filtered_length_boundary 3 [7, 8, 2] 0 (by decide)⟩

/-! ## C4 — degenerate window: `W > N` means full pass-through -/

/-- C4: when the window width exceeds the sequence length the interior index
range `[edge, N - edge)` is empty, so the filter returns the input
unchanged; in particular `N = 1`, `W = 3` passes the sequence through.  (The
embedding is a total function on lists, mirroring that the interior loop
performs no read at all in this case.) -/
theorem degenerate_window_id (w : Nat) (dat : List ℚ) (h : dat.length < w) :
    medianFilterW w dat = dat := by
  unfold medianFilterW
  have hz : dat.length - w / 2 - w / 2 = 0 := by omega
  rw [hz]
  rfl

theorem degenerate_window_id_witness :
    ([(5 : ℚ)] : List ℚ).length < 3 ∧ medianFilterW 3 [(5 : ℚ)] = [(5 : ℚ)] :=
  ⟨by decide, degenerate_window_id 3 [5] (by decide)⟩

/-! ## C7 — strictly monotonic inputs are fixed points (W = 3) -/

theorem medianFilter_getD (dat : List ℚ) (i : Nat) :
    (medianFilter dat).getD i 0 =
      if 1 ≤ i ∧ i < dat.length - 1 then pixelValue 3 dat i
      else dat.getD i 0 :=
  medianFilterW_getD 3 dat i

theorem sorted_three_middle {a b c : ℚ} (h1 : a < b) (h2 : b < c) :
    (qsortFloats [a, b, c]).getD 1 0 = b := by
  simp [qsortFloats, List.insertionSort, List.orderedInsert, h1.le, h2.le]

theorem sorted_three_middle_rev {a b c : ℚ} (h1 : b < a) (h2 : c < b) :
    (qsortFloats [a, b, c]).getD 1 0 = b := by
  simp [qsortFloats, List.insertionSort, List.orderedInsert, not_le.mpr h1,
    not_le.mpr h2, not_le.mpr (h2.trans h1)]

/-- C7: filtering a strictly monotonic sequence (increasing or decreasing)
with `W = 3` returns it unchanged: each 3-value window's median is its
center value. -/
theorem monotonic_ramp_unchanged (dat : List ℚ)
    (h : List.Sorted (fun x y : ℚ => x < y) dat ∨
      List.Sorted (fun x y : ℚ => y < x) dat) :
    medianFilter dat = dat := by
  have hlen : (medianFilter dat).length = dat.length := medianFilterW_length 3 dat
  apply List.ext_getElem hlen
  intro i h1 h2
  have key : (medianFilter dat).getD i 0 = dat.getD i 0 := by
    rw [medianFilter_getD]
    by_cases hi : 1 ≤ i ∧ i < dat.length - 1
    · rw [if_pos hi]
      have hb1 : i - 1 < dat.length := by omega
      have hb2 : i < dat.length := by omega
      have hb3 : i + 1 < dat.length := by omega
      have hwin : windowAt 3 1 i dat =
          [dat.getD (i - 1) 0, dat.getD i 0, dat.getD (i + 1) 0] := rfl
      show (qsortFloats (windowAt 3 1 i dat)).getD 1 0 = dat.getD i 0
      rw [hwin]
      rcases h with hinc | hdec
      · have hp := List.pairwise_iff_getElem.mp hinc
        have l1 : dat.getD (i - 1) 0 < dat.getD i 0 := by
          rw [getD_of_lt dat 0 (i - 1) hb1, getD_of_lt dat 0 i hb2]
          simpa using hp (i - 1) i hb1 hb2 (by omega)
        have l2 : dat.getD i 0 < dat.getD (i + 1) 0 := by
          rw [getD_of_lt dat 0 i hb2, getD_of_lt dat 0 (i + 1) hb3]
          simpa using hp i (i + 1) hb2 hb3 (by omega)
        exact sorted_three_middle l1 l2
      · have hp := List.pairwise_iff_getElem.mp hdec
        have l1 : dat.getD i 0 < dat.getD (i - 1) 0 := by
          rw [getD_of_lt dat 0 (i - 1) hb1, getD_of_lt dat 0 i hb2]
          simpa using hp (i - 1) i hb1 hb2 (by omega)
        have l2 : dat.getD (i + 1) 0 < dat.getD i 0 := by
          rw [getD_of_lt dat 0 i hb2, getD_of_lt dat 0 (i + 1) hb3]
          simpa using hp i (i + 1) hb2 hb3 (by omega)
        exact sorted_three_middle_rev l1 l2
    · rw [if_neg hi]
  rw [getD_of_lt _ 0 i h1, getD_of_lt _ 0 i h2] at key
  simpa using key

theorem monotonic_ramp_unchanged_witness :
    (List.Sorted (fun x y : ℚ => x < y) [1, 2, 3] ∨
        List.Sorted (fun x y : ℚ => y < x) [1, 2, 3]) ∧
      medianFilter [1, 2, 3] = [1, 2, 3] :=
  ⟨by decide, monotonic_ramp_unchanged [1, 2, 3] (by decide)⟩

/-! ## C9 — every output value occurs in its window -/

theorem qsort_getD_mem (l : List ℚ) (k : Nat) (hk : k < l.length) :
    (qsortFloats l).getD k 0 ∈ l := by
  have hp : (qsortFloats l).Perm l := List.perm_insertionSort _ l
  have hlen : (qsortFloats l).length = l.length := hp.length_eq
  rw [getD_of_lt _ 0 k (by omega)]
  exact hp.mem_iff.mp (List.get_mem _ _ _)

/-- C9: with `W = 3`, every interior output value is one of the three input
values of its centered window, and every edge position holds the input value
itself — the filter never produces a value absent from the window. -/
theorem output_value_from_window (dat : List ℚ) (i : Nat) (hi : i < dat.length) :
    ((1 ≤ i ∧ i < dat.length - 1) →
        (medianFilter dat).getD i 0 ∈
          [dat.getD (i - 1) 0, dat.getD i 0, dat.getD (i + 1) 0]) ∧
      ((i < 1 ∨ dat.length - 1 ≤ i) →
        (medianFilter dat).getD i 0 = dat.getD i 0) := by
  constructor
  · intro hint
    rw [medianFilter_getD, if_pos hint]
    show (qsortFloats (windowAt 3 1 i dat)).getD 1 0 ∈ _
    have hwin : windowAt 3 1 i dat =
        [dat.getD (i - 1) 0, dat.getD i 0, dat.getD (i + 1) 0] := rfl
    rw [← hwin]
    exact qsort_getD_mem _ 1 (by simp [windowAt])
  · intro hb
    rw [medianFilter_getD, if_neg (by omega)]

theorem output_value_from_window_witness :
    1 < ([(1 : ℚ), 2, 3] : List ℚ).length ∧
      (((1 ≤ 1 ∧ 1 < ([(1 : ℚ), 2, 3] : List ℚ).length - 1) →
          (medianFilter [(1 : ℚ), 2, 3]).getD 1 0 ∈
            [([(1 : ℚ), 2, 3] : List ℚ).getD 0 0, ([(1 : ℚ), 2, 3] : List ℚ).getD 1 0,
              ([(1 : ℚ), 2, 3] : List ℚ).getD 2 0]) ∧
        ((1 < 1 ∨ ([(1 : ℚ), 2, 3] : List ℚ).length - 1 ≤ 1) →
          (medianFilter [(1 : ℚ), 2, 3]).getD 1 0 = ([(1 : ℚ), 2, 3] : List ℚ).getD 1 0)) :=
  ⟨by decide, output_value_from_window [1, 2, 3] 1 (by decide)⟩

/-! ## C8 — the input array is never mutated -/

/-- The filter with the input array threaded through the interior loop as
explicit state: each iteration reads its window from the first component
(the `dat` array) and writes only `outputPixelValue`, the second component,
exactly as the loop body of `medianFilter` does. -/
def medianFilterRun (w : Nat) (dat : List ℚ) : List ℚ × List ℚ :=
  (List.range' (w / 2) (dat.length - w / 2 - w / 2)).foldl
    (fun st i => (st.1, st.2.set i (pixelValue w st.1 i)))
    (dat, dat)

theorem foldl_pair_fst (g : List ℚ → Nat → ℚ) (l : List Nat) (st : List ℚ × List ℚ) :
    (l.foldl (fun s i => (s.1, s.2.set i (g s.1 i))) st).1 = st.1 := by
  induction l generalizing st with
  | nil => rfl
  | cons j t ih =>
    rw [List.foldl_cons]
    exact ih _

theorem foldl_pair_snd (g : List ℚ → Nat → ℚ) (l : List Nat) (st : List ℚ × List ℚ) :
    (l.foldl (fun s i => (s.1, s.2.set i (g s.1 i))) st).2 =
      l.foldl (fun out i => out.set i (g st.1 i)) st.2 := by
  induction l generalizing st with
  | nil => rfl
  | cons j t ih =>
    rw [List.foldl_cons, List.foldl_cons]
    exact ih (st.1, st.2.set j (g st.1 j))

/-- C8: the median filter never mutates its input sequence and returns a
newly owned output: running the loop with the input array as explicit state
returns the input unchanged, and the output component is exactly
`medianFilterW`'s newly built array. -/
theorem input_not_mutated (w : Nat) (dat : List ℚ) :
    (medianFilterRun w dat).1 = dat ∧ (medianFilterRun w dat).2 = medianFilterW w dat := by
  constructor
  · exact foldl_pair_fst (fun d i => pixelValue w d i) _ _
  · unfold medianFilterRun medianFilterW
    exact foldl_pair_snd (fun d i => pixelValue w d i) _ _

/-! ## Records, the chronological sort (C5, C10) -/

/-- `struct new_temporal` built in `main`: the composite date+time key
`date_t` plus the two extracted channel values. -/
structure NewTemporal where
  date_t : String
  fof2 : ℚ
  hmf2 : ℚ
deriving DecidableEq, Inhabited

/-- The spec's ChronoKey: the derived date+time ordering key of a record. -/
def ChronoKey (r : NewTemporal) : String := r.date_t

/-- Model of the `sortDate` comparator as used by the `qsort` call in
`main`.  `sortDate` casts each element pointer to `struct temporal *` and
calls `strcmp(aa->date, bb->date)`; `date` sits at offset 0 and `strcmp`
reads characters up to the NUL terminator, so on the `struct new_temporal`
elements actually being sorted it compares the entire composite
`date_t = date ++ "." ++ time` C string as a raw character sequence. -/
def sortDateLe (a b : NewTemporal) : Prop := a.date_t ≤ b.date_t

instance : DecidableRel sortDateLe :=
  fun a b => inferInstanceAs (Decidable (a.date_t ≤ b.date_t))

instance : IsTotal NewTemporal sortDateLe :=
  ⟨fun a b => le_total a.date_t b.date_t⟩

instance : IsTrans NewTemporal sortDateLe :=
  ⟨fun _ _ _ hab hbc => le_trans hab hbc⟩

/-- `qsort(date_time, end, sizeof(struct new_temporal), sortDate)`. -/
def qsortRecords (rs : List NewTemporal) : List NewTemporal :=
  List.insertionSort sortDateLe rs

/-- C5: after sorting, the record collection is totally ordered ascending by
the composite date+time key: every adjacent pair satisfies
`ChronoKey r[i] ≤ ChronoKey r[i+1]`. -/
theorem sorted_by_chrono_key (rs : List NewTemporal) (i : Nat)
    (h : i + 1 < (qsortRecords rs).length) :
    ChronoKey ((qsortRecords rs).getD i default) ≤
      ChronoKey ((qsortRecords rs).getD (i + 1) default) := by
  have hs : List.Sorted sortDateLe (qsortRecords rs) :=
    List.sorted_insertionSort sortDateLe rs
  rw [getD_of_lt _ default i (by omega), getD_of_lt _ default (i + 1) h]
  exact hs.rel_get_of_lt (Fin.mk_lt_mk.mpr (Nat.lt_succ_self i))

/-- Two concrete records whose ChronoKeys are out of order as given. -/
def sampleRecords : List NewTemporal :=
  [⟨"2021.01.02.08:00:00", 1, 2⟩, ⟨"2021.01.01.09:30:00", 3, 4⟩]

theorem qsortRecords_length (rs : List NewTemporal) :
    (qsortRecords rs).length = rs.length :=
  (List.perm_insertionSort sortDateLe rs).length_eq

theorem sorted_by_chrono_key_witness :
    0 + 1 < (qsortRecords sampleRecords).length ∧
      ChronoKey ((qsortRecords sampleRecords).getD 0 default) ≤
        ChronoKey ((qsortRecords sampleRecords).getD (0 + 1) default) :=
  ⟨by rw [qsortRecords_length]; decide,
    sorted_by_chrono_key sampleRecords 0 (by rw [qsortRecords_length]; decide)⟩

/-- C10: the chronological sort is a permutation of the record collection —
no record is lost, duplicated, or has its key or channel fields altered. -/
theorem qsort_records_perm (rs : List NewTemporal) :
    List.Perm (qsortRecords rs) rs :=
  List.perm_insertionSort sortDateLe rs

/-! ## The line reader of `readInputFile` (C6) -/

/-- `struct temporal`: one parsed data row (date, symbol, time, sequence
number, eleven float channels). -/
structure Temporal where
  date : String
  dig : String
  timestmp : String
  x : Int
  d : List ℚ
deriving DecidableEq

/-- A `strtok` delimiter for the data-line calls (`" "` / `" \n"`). -/
def isDelim (c : Char) : Bool :=
  c == ' ' || c == '\n'

/-- `strtok` tokenisation of one line: maximal runs of non-delimiter
characters, in order; `strtok` skips delimiter runs and returns NULL once
no token remains.  The accumulator holds the current token reversed. -/
def strtokRun : List Char → List Char → List (List Char)
  | [], cur => if cur.isEmpty then [] else [cur.reverse]
  | c :: cs, cur =>
    if isDelim c then
      if cur.isEmpty then strtokRun cs [] else cur.reverse :: strtokRun cs []
    else strtokRun cs (c :: cur)

/-- The sequence of tokens `strtok` yields on one data line. -/
def tokensOf (line : String) : List String :=
  (strtokRun line.data []).map (fun cs => String.mk cs)

/-- Leading-digit-run accumulation shared by the `atoi`/`atof` models. -/
def digitsVal : List Char → Nat → Nat
  | [], acc => acc
  | c :: cs, acc => if c.isDigit then digitsVal cs (acc * 10 + (c.toNat - 48)) else acc

/-- Model of `atoi` on a token (tokens carry no leading whitespace):
optional minus sign then the leading digit run; junk yields 0 — `atoi`
reports no error. -/
def atoiC (s : String) : Int :=
  match s.data with
  | '-' :: cs => -(digitsVal cs 0 : Int)
  | cs => (digitsVal cs 0 : Int)

/-- Magnitude part of the `atof` model: integer digit run, then an optional
fractional digit run after a decimal point (the schema's number notation). -/
def atofMag (cs : List Char) : ℚ :=
  (digitsVal (cs.takeWhile Char.isDigit) 0 : ℚ) +
    (match cs.dropWhile Char.isDigit with
      | '.' :: fs =>
        (digitsVal (fs.takeWhile Char.isDigit) 0 : ℚ) /
          (10 : ℚ) ^ (fs.takeWhile Char.isDigit).length
      | _ => 0)

/-- Model of `atof` on a token: optional minus sign then a decimal
magnitude; junk yields 0 — `atof` reports no error. -/
def atofC (s : String) : ℚ :=
  match s.data with
  | '-' :: cs => -atofMag cs
  | cs => atofMag cs

/-- One iteration of the `readInputFile` line loop.  The C code calls
`strtok` fifteen times and uses every result unchecked: token 0 → `date`,
1 → `dig`, 2 → `timestmp`, 3 → `atoi` → `x`, 4..14 → `atof` → `d[0..10]`.
When the line holds fewer than 15 tokens, `strtok` returns NULL and the
code feeds NULL into `strcpy`/`atoi`/`atof` — undefined behaviour, modelled
as `none`.  Tokens beyond the fifteenth are silently ignored. -/
def readDataLine (line : String) : Option Temporal :=
  let ts := tokensOf line
  if 15 ≤ ts.length then
    some
      { date := ts.getD 0 ""
        dig := ts.getD 1 ""
        timestmp := ts.getD 2 ""
        x := atoiC (ts.getD 3 "")
        d := [atofC (ts.getD 4 ""), atofC (ts.getD 5 ""), atofC (ts.getD 6 ""),
          atofC (ts.getD 7 ""), atofC (ts.getD 8 ""), atofC (ts.getD 9 ""),
          atofC (ts.getD 10 ""), atofC (ts.getD 11 ""), atofC (ts.getD 12 ""),
          atofC (ts.getD 13 ""), atofC (ts.getD 14 "")] }
  else none

/-- C6 evidence: a data line with only 10 tokens drives `readInputFile`
into the NULL-token path — `strcpy`/`atof` receive the NULL returned by the
eleventh `strtok` call, undefined behaviour rather than a structured
`SchemaViolation`; and a 16-token line, whose token count is also not 15,
is accepted without any error, the extra token silently ignored. -/
theorem ten_token_line_behavior :
    readDataLine "2021.01.01 (123) 00:00:00 1 2.0 3.0 4.0 5.0 6.0 7.0" = none ∧
      (readDataLine "a b c 1 2 3 4 5 6 7 8 9 10 11 12 13").isSome = true := by
  decide

end RdSci
